import Mathlib

/-!
Verification development for the SkyHelper-Networth orchestration module
(`index.js`).  The JavaScript value universe is shallowly embedded as
`JsVal`; objects are insertion-ordered association lists, property
assignment (`setEntry`) overwrites the first occurrence of a key in place
or appends a fresh entry, exactly as JS object writes do.  The functions
`parsePrices`, `getPrices`, `getItemNetworth` and `getNetworth` are
translated statement by statement from the source; external collaborators
(the HTTP fetch, `parseItems`, `calculateNetworth`, `calculateItemNetworth`)
are parameters of the embedding.
-/

set_option autoImplicit false

namespace SkyHelper

/-- Shallow embedding of the JavaScript values the module manipulates.
Objects are insertion-ordered association lists of properties. -/
inductive JsVal where
  | num (n : Int)
  | str (s : String)
  | boolean (b : Bool)
  | undefVal
  | nullv
  | obj (entries : List (String × JsVal))
deriving Repr

/-- JS truthiness: `0`, `""`, `false`, `undefined` and `null` are falsy;
every object (including `\x7b\x7d`) is truthy. -/
def truthy : JsVal → Bool
  | .num n => n != 0
  | .str s => s ≠ ""
  | .boolean b => b
  | .undefVal => false
  | .nullv => false
  | .obj _ => true

/-- `s.toLowerCase()`, embedded as a structural charwise map so that it
computes by `rfl`/`decide` (Lean core's `Char.toLower` is ASCII-only,
which covers the ASCII item identifiers of the catalogs). -/
def toLowerStr (s : String) : String := String.mk (s.data.map Char.toLower)

/-- `v instanceof Object`: true exactly for (non-primitive) objects. -/
def instanceofObject : JsVal → Bool
  | .obj _ => true
  | _ => false

/-- The JS prefix operator `!`, producing a boolean value. -/
def jsNot (v : JsVal) : JsVal := .boolean (!truthy v)

/-- First value stored under key `k` in an association list, scanning left
to right (JS property lookup on our ordered representation). -/
def lookupJs : List (String × JsVal) → String → Option JsVal
  | [], _ => none
  | (k', v) :: rest, k => if k' = k then some v else lookupJs rest k

/-- JS optional-chained property read `v?.k`, and plain reads whose
receiver is known non-nullish: `undefined` when the property is absent or
the receiver a primitive.  A plain read on a possibly-null/undefined
receiver goes through `jsGetStrict`, which raises the `TypeError` JS
raises there. -/
def jsGet (v : JsVal) (k : String) : JsVal :=
  match v with
  | .obj es => (lookupJs es k).getD .undefVal
  | _ => .undefVal

/-- JS property write `o[k] = v` on the ordered representation: overwrite
the first entry with key `k` in place, or append a fresh entry. -/
def setEntry : List (String × JsVal) → String → JsVal → List (String × JsVal)
  | [], k, v => [(k, v)]
  | (k', v') :: rest, k, v =>
    if k' = k then (k, v) :: rest else (k', v') :: setEntry rest k v

/-- `Object.keys(v)`: property names of an object in order; index strings
for a string; empty for other primitives. -/
def jsKeys : JsVal → List String
  | .obj es => es.map Prod.fst
  | .str s => (List.range s.length).map toString
  | _ => []

/-- `Object.entries(v)` restricted to the object case (the module only
enumerates entries of fetched JSON objects). -/
def jsEntries : JsVal → List (String × JsVal)
  | .obj es => es
  | _ => []

/-- `v[Object.keys(v)[0]]`: the representative first entry inspected by the
shape detection; `undefined` when there are no keys. -/
def jsGetFirst (v : JsVal) : JsVal :=
  match (jsKeys v).head? with
  | some k => jsGet v k
  | none => .undefVal

/-- The error values the module can surface.  `networthError` embeds the
`NetworthError` class (the spec's `InvalidInput`), `pricesError` the
`PricesError` class, and `typeError` a JS runtime `TypeError` (such as
calling `.toLowerCase()` on `undefined`). -/
inductive JsError where
  | networthError (msg : String)
  | pricesError (msg : String)
  | typeError
deriving Repr

/-- Outcome of the `axios.get` call for the price snapshot: either the
parsed response body, or a failure carrying `err?.response?.status`
(`none` when the error has no HTTP response attached). -/
inductive FetchResult where
  | success (data : JsVal)
  | failure (status : Option Nat)
deriving Repr

/-- `err?.response?.status || 'Unknown'` interpolated into the failure
message: a missing status — or a falsy one, i.e. `0` — prints as
`Unknown`. -/
def statusText : Option Nat → String
  | some n => if n = 0 then "Unknown" else toString n
  | none => "Unknown"

/-- Is the value `null` or `undefined` (the receivers on which a plain JS
property access throws)? -/
def isNullish : JsVal → Bool
  | .nullv => true
  | .undefVal => true
  | _ => false

/-- Plain (non-optional-chained) JS property read `v.k`: raises a
`TypeError` when the receiver is `null` or `undefined` (as
`priceObject.price` does on a null snapshot entry), and reads like
`jsGet` otherwise. -/
def jsGetStrict (v : JsVal) (k : String) : Except JsError JsVal :=
  if isNullish v then .error .typeError else .ok (jsGet v k)

/-- Loop of lines 55-57: `prices[item.toLowerCase()] = priceObject.price`
over the remaining entries of the fetched object-valued snapshot, with
`acc` the fresh `prices` object built so far.  The plain read
`priceObject.price` raises a `TypeError` on a `null`/`undefined` entry,
aborting the loop (the error propagates to the `catch`). -/
def extractPricesLoop :
    List (String × JsVal) → List (String × JsVal) → Except JsError (List (String × JsVal))
  | [], acc => .ok acc
  | p :: rest, acc =>
    match jsGetStrict p.2 "price" with
    | .error e => .error e
    | .ok pv => extractPricesLoop rest (setEntry acc (toLowerStr p.1) pv)

/-- Extraction of the object-valued snapshot shape (lines 54-58): start
from the fresh object `const prices = \x7b\x7d` and run the loop. -/
def extractPrices (es : List (String × JsVal)) : Except JsError (List (String × JsVal)) :=
  extractPricesLoop es []

/-- `prices[item.toLowerCase()] = price` over all entries of the fetched
flat snapshot, into a fresh object. -/
def lowerAll (es : List (String × JsVal)) : List (String × JsVal) :=
  es.foldl (fun acc p => setEntry acc (toLowerStr p.1) p.2) []

/-- Body of the `try` block of `getPrices` after the fetch succeeded with
`response.data = data`: shape-sniff the first entry, extract `price`
fields from an object-valued snapshot, lowercase the keys of a mixed-case
flat snapshot, and otherwise return the data unchanged.  When `data` has
no keys, `firstKey` is `undefined` and `firstKey.toLowerCase()` raises a
`TypeError` (caught by the surrounding handler). -/
def getPricesBody (data : JsVal) : Except JsError JsVal :=
  match (jsKeys data).head? with
  | none => .error .typeError
  | some firstKey =>
    if instanceofObject (jsGet data firstKey) then
      match extractPrices (jsEntries data) with
      | .ok prices => .ok (.obj prices)
      | .error e => .error e
    else if firstKey ≠ toLowerStr firstKey then
      .ok (.obj (lowerAll (jsEntries data)))
    else
      .ok data

/-- `getPrices`: fetch the snapshot and normalize it; any error raised in
the `try` block — a failed fetch or a `TypeError` from the normalization —
is caught and rethrown as a `PricesError` interpolating
`err?.response?.status || 'Unknown'` (a `TypeError` has no `response`). -/
def getPrices (fetch : FetchResult) : Except JsError JsVal :=
  match fetch with
  | .failure st =>
    .error (.pricesError ("Failed to retrieve prices with status code " ++ statusText st))
  | .success data =>
    match getPricesBody data with
    | .ok v => .ok v
    | .error _ =>
      .error (.pricesError ("Failed to retrieve prices with status code " ++ statusText none))

/-- `for (id of Object.keys(prices)) prices[id.toLowerCase()] = prices[id]`:
fold the in-place writes over a snapshot of the keys, reading the current
value of `prices[id]` at each step.  Property writes on a primitive
receiver are silently dropped (sloppy mode), so non-objects pass through. -/
def rewriteLower : JsVal → JsVal
  | .obj es =>
    .obj ((es.map Prod.fst).foldl
      (fun s id => setEntry s (toLowerStr id) ((lookupJs s id).getD .undefVal)) es)
  | v => v

/-- `parsePrices(prices)` from `index.js`, with the `await getPrices()`
fallback made explicit through the `fetch` parameter.  The guard
`!prices instanceof Object || prices[firstKey] instanceof Object` parses
as `((!prices) instanceof Object) || ...`, embedded verbatim via `jsNot`.
When the first key is `undefined` (no keys), `firstKey.toLowerCase()`
raises a `TypeError`.  The source mutates the supplied object in place and
returns that same reference; the embedding returns the object's final
contents. -/
def parsePrices (prices : JsVal) (fetch : FetchResult) : Except JsError JsVal :=
  if truthy prices then
    if instanceofObject (jsNot prices) || instanceofObject (jsGetFirst prices) then
      .error (.networthError "Invalid prices data provided")
    else
      match (jsKeys prices).head? with
      | none => .error .typeError
      | some firstKey =>
        let prices' := if firstKey ≠ toLowerStr firstKey then rewriteLower prices else prices
        if truthy prices' then .ok prices' else getPrices fetch
  else
    getPrices fetch

/-- `getItemNetworth(item, options)`: reject an item whose `tag` and `exp`
are both falsy, otherwise normalize the prices and hand off to the
external `calculateItemNetworth` collaborator (a parameter `calc` of the
embedding, as `helper/calculateNetworth` is outside the module). -/
def getItemNetworth (item options : JsVal) (fetch : FetchResult)
    (calcItem : JsVal → JsVal → JsVal) : Except JsError JsVal :=
  if !truthy (jsGet item "tag") && !truthy (jsGet item "exp") then
    .error (.networthError "Invalid item provided")
  else
    match parsePrices (jsGet options "prices") fetch with
    | .error e => .error e
    | .ok prices => .ok (calcItem item prices)

/-- `getNetworth(profileData, bankBalance, options)`: read the purse,
normalize the prices, parse the items and hand off to the external
`calculateNetworth` collaborator (parameters `parseItemsF` and `calcF`,
as `helper/parseItems` and `helper/calculateNetworth` are outside the
module). -/
def getNetworth (profileData bankBalance options : JsVal) (fetch : FetchResult)
    (parseItemsF : JsVal → JsVal)
    (calcF : JsVal → JsVal → JsVal → JsVal → JsVal → JsVal) : Except JsError JsVal :=
  match jsGetStrict profileData "coin_purse" with
  | .error e => .error e
  | .ok purse =>
    match parsePrices (jsGet options "prices") fetch with
    | .error e => .error e
    | .ok prices =>
      .ok (calcF (parseItemsF profileData) purse bankBalance prices (jsGet options "onlyNetworth"))

/-- Does a value hold a bare number?  Used to phrase the canonical-catalog
hypothesis of the idempotence property decidably. -/
def isNum : JsVal → Bool
  | .num _ => true
  | _ => false

/-- Entries appended by the in-place lowercase rewrite of `parsePrices`
when the keys `js` of the catalog `es` are processed: one entry per key
whose lowercase form is not already a key, holding that key's value. -/
def addedEntries (es : List (String × JsVal)) (js : List String) : List (String × JsVal) :=
  js.filterMap (fun j =>
    if toLowerStr j ∈ es.map Prod.fst then none
    else some (toLowerStr j, (lookupJs es j).getD .undefVal))

theorem lookupJs_append_left {A : List (String × JsVal)} {k : String} :
    ∀ {es : List (String × JsVal)}, k ∈ es.map Prod.fst →
      lookupJs (es ++ A) k = lookupJs es k := by
  intro es h
  induction es with
  | nil => simp at h
  | cons p rest ih =>
    obtain ⟨a, b⟩ := p
    by_cases hk : a = k
    · simp [lookupJs, hk]
    · have hmem : k ∈ rest.map Prod.fst := by
        rw [List.map_cons] at h
        rcases List.mem_cons.mp h with h1 | h1
        · exact absurd h1.symm hk
        · exact h1
      simp [lookupJs, hk, ih hmem]

theorem lookupJs_eq_none {es : List (String × JsVal)} {k : String} :
    lookupJs es k = none ↔ k ∉ es.map Prod.fst := by
  induction es with
  | nil => simp [lookupJs]
  | cons p rest ih =>
    obtain ⟨a, b⟩ := p
    by_cases hk : a = k
    · simp [lookupJs, hk]
    · simp [lookupJs, hk, ih, Ne.symm hk]

theorem lookupJs_append_right {A es : List (String × JsVal)} {k : String}
    (h : k ∉ es.map Prod.fst) : lookupJs (es ++ A) k = lookupJs A k := by
  induction es with
  | nil => simp
  | cons p rest ih =>
    obtain ⟨a, b⟩ := p
    have hk : a ≠ k := fun hak => h (by simp [hak])
    have hmem : k ∉ rest.map Prod.fst := fun hm => h (by simp [hm])
    simp [lookupJs, hk, ih hmem]

theorem lookupJs_isSome_of_mem {es : List (String × JsVal)} {k : String}
    (h : k ∈ es.map Prod.fst) : ∃ v, lookupJs es k = some v := by
  cases hv : lookupJs es k with
  | none => exact absurd h (lookupJs_eq_none.mp hv)
  | some v => exact ⟨v, rfl⟩

theorem lookupJs_eq_of_mem_nodup {es : List (String × JsVal)} {k : String} {v : JsVal}
    (hnd : (es.map Prod.fst).Nodup) (h : (k, v) ∈ es) : lookupJs es k = some v := by
  induction es with
  | nil => simp at h
  | cons p rest ih =>
    obtain ⟨a, b⟩ := p
    rw [List.map_cons] at hnd
    have hnd' := List.nodup_cons.mp hnd
    rcases List.mem_cons.mp h with h1 | h1
    · obtain ⟨hk1, hv1⟩ := Prod.ext_iff.mp h1
      simp only at hk1 hv1
      subst hk1; subst hv1
      simp [lookupJs]
    · have hk : a ≠ k := by
        intro hak
        subst hak
        exact hnd'.1 (List.mem_map.mpr ⟨(a, v), h1, rfl⟩)
      simp [lookupJs, hk, ih hnd'.2 h1]

theorem setEntry_of_notMem {es : List (String × JsVal)} {k : String} (v : JsVal)
    (h : k ∉ es.map Prod.fst) : setEntry es k v = es ++ [(k, v)] := by
  induction es with
  | nil => rfl
  | cons p rest ih =>
    obtain ⟨a, b⟩ := p
    have hk : a ≠ k := fun hak => h (by simp [hak])
    have hmem : k ∉ rest.map Prod.fst := fun hm => h (by simp [hm])
    simp [setEntry, hk, ih hmem]

theorem setEntry_lookup_self {es : List (String × JsVal)} {k : String} {v : JsVal}
    (h : lookupJs es k = some v) : setEntry es k v = es := by
  induction es with
  | nil => simp [lookupJs] at h
  | cons p rest ih =>
    obtain ⟨a, b⟩ := p
    by_cases hk : a = k
    · simp only [lookupJs, if_pos hk] at h
      obtain rfl : b = v := Option.some.injEq .. ▸ h
      simp [setEntry, hk]
    · simp only [lookupJs, if_neg hk] at h
      simp [setEntry, hk, ih h]

theorem foldl_setEntry_fresh (f : String × JsVal → String) (g : String × JsVal → JsVal) :
    ∀ (es A : List (String × JsVal)),
      List.Pairwise (fun p q => f p ≠ f q) es →
      (∀ p ∈ es, f p ∉ A.map Prod.fst) →
      es.foldl (fun acc p => setEntry acc (f p) (g p)) A
        = A ++ es.map (fun p => (f p, g p)) := by
  intro es
  induction es with
  | nil => intro A _ _; simp
  | cons p rest ih =>
    intro A hpw hfresh
    rw [List.foldl_cons, setEntry_of_notMem (g p) (hfresh p (by simp))]
    rw [ih (A ++ [(f p, g p)]) (List.pairwise_cons.mp hpw).2 ?fresh]
    · simp
    case fresh =>
      intro q hq
      rw [List.map_append, List.mem_append]
      rintro (hA | hhd)
      · exact hfresh q (by simp [hq]) hA
      · simp only [List.map_cons, List.map_nil, List.mem_singleton] at hhd
        exact (List.pairwise_cons.mp hpw).1 q hq hhd.symm

theorem rewriteFold_closed (es : List (String × JsVal))
    (hinj : ∀ a ∈ es.map Prod.fst, ∀ b ∈ es.map Prod.fst,
      a ≠ b → toLowerStr a ≠ toLowerStr b) :
    ∀ (js : List String) (A : List (String × JsVal)),
      (∀ j ∈ js, j ∈ es.map Prod.fst) →
      js.Nodup →
      (∀ j ∈ js, toLowerStr j ∈ es.map Prod.fst → toLowerStr j = j) →
      (∀ j ∈ js, toLowerStr j ∉ A.map Prod.fst) →
      js.foldl (fun s id => setEntry s (toLowerStr id) ((lookupJs s id).getD .undefVal)) (es ++ A)
        = (es ++ A) ++ addedEntries es js := by
  intro js
  induction js with
  | nil => intro A _ _ _ _; simp [addedEntries]
  | cons j rest ih =>
    intro A hmem hnd hself hfreshA
    have hjK : j ∈ es.map Prod.fst := hmem j (by simp)
    obtain ⟨w, hw⟩ := lookupJs_isSome_of_mem hjK
    have hlook : lookupJs (es ++ A) j = some w := by
      rw [lookupJs_append_left hjK, hw]
    rw [List.foldl_cons]
    by_cases hK : toLowerStr j ∈ es.map Prod.fst
    · have hjeq : toLowerStr j = j := hself j (by simp) hK
      have hstep : setEntry (es ++ A) (toLowerStr j) ((lookupJs (es ++ A) j).getD .undefVal)
          = es ++ A := by
        rw [hjeq, hlook]
        exact setEntry_lookup_self hlook
      rw [hstep, ih A (fun x hx => hmem x (by simp [hx])) (List.nodup_cons.mp hnd).2
        (fun x hx => hself x (by simp [hx])) (fun x hx => hfreshA x (by simp [hx]))]
      simp [addedEntries, hK]
    · have hfresh1 : toLowerStr j ∉ (es ++ A).map Prod.fst := by
        rw [List.map_append, List.mem_append]
        rintro (h1 | h1)
        · exact hK h1
        · exact hfreshA j (by simp) h1
      rw [setEntry_of_notMem _ hfresh1, hlook]
      have hassoc : (es ++ A) ++ [(toLowerStr j, (some w).getD .undefVal)]
          = es ++ (A ++ [(toLowerStr j, w)]) := by simp
      rw [hassoc]
      rw [ih (A ++ [(toLowerStr j, w)]) (fun x hx => hmem x (by simp [hx]))
        (List.nodup_cons.mp hnd).2 (fun x hx => hself x (by simp [hx])) ?freshA2]
      · simp only [addedEntries, List.filterMap_cons, if_neg hK, hw]
        simp [addedEntries]
      case freshA2 =>
        intro x hx
        rw [List.map_append, List.mem_append]
        rintro (h1 | h1)
        · exact hfreshA x (by simp [hx]) h1
        · simp only [List.map_cons, List.map_nil, List.mem_singleton] at h1
          have hxj : x ≠ j := by
            intro hxe; subst hxe
            exact (List.nodup_cons.mp hnd).1 hx
          exact hinj x (hmem x (by simp [hx])) j hjK hxj h1

theorem rewriteLower_closed (es : List (String × JsVal))
    (hnd : (es.map Prod.fst).Nodup)
    (hinj : ∀ a ∈ es.map Prod.fst, ∀ b ∈ es.map Prod.fst,
      a ≠ b → toLowerStr a ≠ toLowerStr b)
    (hself : ∀ j ∈ es.map Prod.fst, toLowerStr j ∈ es.map Prod.fst → toLowerStr j = j) :
    rewriteLower (.obj es) = .obj (es ++ addedEntries es (es.map Prod.fst)) := by
  have hfold := rewriteFold_closed es hinj (es.map Prod.fst) []
    (fun j h => h) hnd hself (by simp)
  rw [List.append_nil] at hfold
  show JsVal.obj ((es.map Prod.fst).foldl
    (fun s id => setEntry s (toLowerStr id) ((lookupJs s id).getD .undefVal)) es)
      = .obj (es ++ addedEntries es (es.map Prod.fst))
  rw [hfold]

theorem lookupJs_addedEntries (es : List (String × JsVal))
    (hinj : ∀ a ∈ es.map Prod.fst, ∀ b ∈ es.map Prod.fst,
      a ≠ b → toLowerStr a ≠ toLowerStr b) :
    ∀ js : List String, js.Nodup → (∀ j ∈ js, j ∈ es.map Prod.fst) →
      ∀ k, k ∈ js → toLowerStr k ∉ es.map Prod.fst →
        lookupJs (addedEntries es js) (toLowerStr k)
          = some ((lookupJs es k).getD .undefVal) := by
  intro js
  induction js with
  | nil => intro _ _ k hk _; simp at hk
  | cons j rest ih =>
    intro hnd hmem k hk hlow
    rcases List.mem_cons.mp hk with rfl | hkr
    · simp only [addedEntries, List.filterMap_cons, if_neg hlow]
      simp [lookupJs]
    · have hkK : k ∈ es.map Prod.fst := hmem k (by simp [hkr])
      have hjK : j ∈ es.map Prod.fst := hmem j (by simp)
      have hkj : k ≠ j := by
        intro hke; subst hke
        exact (List.nodup_cons.mp hnd).1 hkr
      have ihr := ih (List.nodup_cons.mp hnd).2 (fun x hx => hmem x (by simp [hx]))
        k hkr hlow
      by_cases hjlow : toLowerStr j ∈ es.map Prod.fst
      · simpa [addedEntries, List.filterMap_cons, if_pos hjlow] using ihr
      · have hne : toLowerStr j ≠ toLowerStr k := hinj j hjK k hkK (Ne.symm hkj)
        simp only [addedEntries, List.filterMap_cons, if_neg hjlow]
        simpa [lookupJs, hne] using ihr

theorem getPrices_not_networthError (f : FetchResult) (m : String) :
    getPrices f ≠ .error (.networthError m) := by
  cases f with
  | failure st => simp [getPrices]
  | success d => cases h : getPricesBody d <;> simp [getPrices, h]

theorem instanceofObject_jsNot (v : JsVal) : instanceofObject (jsNot v) = false := rfl

theorem parsePrices_rewrite_eq (es : List (String × JsVal)) (f : FetchResult)
    (k0 : String) (hhead : (es.map Prod.fst).head? = some k0)
    (hk : k0 ≠ toLowerStr k0)
    (hobj : instanceofObject (jsGetFirst (.obj es)) = false) :
    parsePrices (.obj es) f = .ok (rewriteLower (.obj es)) := by
  simp [parsePrices, truthy, instanceofObject_jsNot, jsKeys, rewriteLower, hobj, hhead, hk]

theorem extractPricesLoop_ok (es : List (String × JsVal)) :
    ∀ acc : List (String × JsVal), (∀ p ∈ es, isNullish p.2 = false) →
      extractPricesLoop es acc
        = .ok (es.foldl (fun acc p => setEntry acc (toLowerStr p.1) (jsGet p.2 "price")) acc) := by
  induction es with
  | nil => intro acc _; rfl
  | cons p rest ih =>
    intro acc hnn
    have hp : isNullish p.2 = false := hnn p (by simp)
    simp only [extractPricesLoop, jsGetStrict, hp, Bool.false_eq_true, if_false,
      List.foldl_cons]
    exact ih (setEntry acc (toLowerStr p.1) (jsGet p.2 "price"))
      (fun q hq => hnn q (by simp [hq]))

theorem extractPricesLoop_nullish (es : List (String × JsVal)) :
    ∀ acc : List (String × JsVal), (∃ p ∈ es, isNullish p.2 = true) →
      extractPricesLoop es acc = .error .typeError := by
  induction es with
  | nil => intro acc h; simp at h
  | cons p rest ih =>
    intro acc h
    cases hp : isNullish p.2 with
    | true => simp [extractPricesLoop, jsGetStrict, hp]
    | false =>
      obtain ⟨q, hq, hqn⟩ := h
      rcases List.mem_cons.mp hq with rfl | hq1
      · rw [hp] at hqn; exact absurd hqn (by simp)
      · simp only [extractPricesLoop, jsGetStrict, hp, Bool.false_eq_true, if_false]
        exact ih (setEntry acc (toLowerStr p.1) (jsGet p.2 "price")) ⟨q, hq1, hqn⟩

theorem extractPrices_eq_map (es : List (String × JsVal))
    (hpw : List.Pairwise (fun p q => toLowerStr p.1 ≠ toLowerStr q.1) es)
    (hnn : ∀ p ∈ es, isNullish p.2 = false) :
    extractPrices es = .ok (es.map (fun p => (toLowerStr p.1, jsGet p.2 "price"))) := by
  rw [extractPrices, extractPricesLoop_ok es [] hnn]
  have h := foldl_setEntry_fresh (fun p => toLowerStr p.1) (fun p => jsGet p.2 "price")
    es [] hpw (by simp)
  simpa using h

theorem getPrices_objectShaped (es : List (String × JsVal)) (k0 : String)
    (hhead : (es.map Prod.fst).head? = some k0)
    (hobj : instanceofObject (jsGet (.obj es) k0) = true)
    (hnn : ∀ p ∈ es, isNullish p.2 = false) :
    getPrices (.success (.obj es))
      = .ok (.obj (es.foldl (fun acc p => setEntry acc (toLowerStr p.1) (jsGet p.2 "price")) [])) := by
  simp [getPrices, getPricesBody, jsKeys, jsEntries, hhead, hobj, extractPrices,
    extractPricesLoop_ok es [] hnn]

theorem getPrices_objectShaped_nullish (es : List (String × JsVal)) (k0 : String)
    (hhead : (es.map Prod.fst).head? = some k0)
    (hobj : instanceofObject (jsGet (.obj es) k0) = true)
    (hnull : ∃ p ∈ es, isNullish p.2 = true) :
    getPrices (.success (.obj es))
      = .error (.pricesError "Failed to retrieve prices with status code Unknown") := by
  simp [getPrices, getPricesBody, jsKeys, jsEntries, hhead, hobj, extractPrices,
    extractPricesLoop_nullish es [] hnull, statusText]

theorem parsePrices_result_shape (p : JsVal) (f : FetchResult)
    (ht : truthy p = true) (hfv : instanceofObject (jsGetFirst p) = false) :
    parsePrices p f = .error .typeError ∨ (∃ v, parsePrices p f = .ok v)
      ∨ parsePrices p f = getPrices f := by
  cases hh : (jsKeys p).head? with
  | none => exact Or.inl (by simp [parsePrices, ht, hfv, instanceofObject_jsNot, hh])
  | some k =>
    rcases eq_or_ne k (toLowerStr k) with he | he
    · cases htr : truthy p with
      | false => simp [ht] at htr
      | true =>
        exact Or.inr (Or.inl ⟨p, by
          simp [parsePrices, ht, hfv, instanceofObject_jsNot, hh, not_not_intro he]⟩)
    · cases htr : truthy (rewriteLower p) with
      | true =>
        exact Or.inr (Or.inl ⟨rewriteLower p, by
          simp [parsePrices, ht, hfv, instanceofObject_jsNot, hh, he, htr]⟩)
      | false =>
        exact Or.inr (Or.inr (by
          simp [parsePrices, ht, hfv, instanceofObject_jsNot, hh, he, htr]))

/-- Claim C1 (counterexample): the two normalization pathways do NOT agree
on an object-valued catalog.  For the raw structure
`APPLE -> (price -> 7)` the caller-supplied pathway (`parsePrices`) fails
with the InvalidInput error, while the fetched pathway (`getPrices`)
extracts the numeric `price` field and lowercases the key. -/
theorem claim_C1_counterexample :
    parsePrices (.obj [("APPLE", .obj [("price", .num 7)])]) (.failure none)
      = .error (.networthError "Invalid prices data provided")
    ∧ getPrices (.success (.obj [("APPLE", .obj [("price", .num 7)])]))
      = .ok (.obj [("apple", .num 7)]) :=
  ⟨rfl, rfl⟩

/-- Claim C1 (amended): the pathways differ on object-valued catalogs.  A
truthy caller-supplied catalog whose representative first entry is an
object is rejected with the InvalidInput error "Invalid prices data
provided"; when the caller supplies a falsy `prices`, `parsePrices`
returns exactly the fetcher's result (already normalized, with no further
processing); the fetched pathway alone extracts the numeric `price` field
of each entry into a fresh lowercase-keyed mapping, provided the keys are
collision-free after lowercasing and no entry value is `null` or
`undefined`; and when some entry value of an object-first snapshot IS
nullish, the plain read `priceObject.price` raises a `TypeError` that the
catch rethrows as the `PricesError` with status "Unknown". -/
theorem claim_C1_amended :
    (∀ (p : JsVal) (f : FetchResult), truthy p = true →
      instanceofObject (jsGetFirst p) = true →
      parsePrices p f = .error (.networthError "Invalid prices data provided"))
    ∧ (∀ (p : JsVal) (f : FetchResult), truthy p = false →
      parsePrices p f = getPrices f)
    ∧ (∀ (es : List (String × JsVal)) (k0 : String),
      (es.map Prod.fst).head? = some k0 →
      instanceofObject (jsGet (.obj es) k0) = true →
      List.Pairwise (fun p q => toLowerStr p.1 ≠ toLowerStr q.1) es →
      (∀ p ∈ es, isNullish p.2 = false) →
      getPrices (.success (.obj es))
        = .ok (.obj (es.map (fun p => (toLowerStr p.1, jsGet p.2 "price")))))
    ∧ (∀ (es : List (String × JsVal)) (k0 : String),
      (es.map Prod.fst).head? = some k0 →
      instanceofObject (jsGet (.obj es) k0) = true →
      (∃ p ∈ es, isNullish p.2 = true) →
      getPrices (.success (.obj es))
        = .error (.pricesError "Failed to retrieve prices with status code Unknown")) := by
  refine ⟨fun p f ht hfv => ?_, fun p f ht => ?_,
    fun es k0 hhead hobj hpw hnn => ?_, fun es k0 hhead hobj hnull => ?_⟩
  · simp [parsePrices, ht, hfv, instanceofObject_jsNot]
  · simp [parsePrices, ht]
  · simp [getPrices, getPricesBody, jsKeys, jsEntries, hhead, hobj,
      extractPrices_eq_map es hpw hnn]
  · exact getPrices_objectShaped_nullish es k0 hhead hobj hnull

/-- Claim C1 (witness): the amended statement instantiated at concrete
inputs — an object-valued supplied catalog is rejected, an `undefined`
supplied catalog delegates to the fetcher, a fetched object-valued
snapshot without nullish entries is flattened to a lowercase numeric
mapping, and a fetched snapshot with a `null` entry fails with the
`PricesError` carrying "Unknown". -/
theorem claim_C1_amended_witness :
    parsePrices (.obj [("x", .obj [])]) (.failure (some 7))
      = .error (.networthError "Invalid prices data provided")
    ∧ parsePrices .undefVal (.failure (some 7)) = getPrices (.failure (some 7))
    ∧ getPrices (.success (.obj [("APPLE", .obj [("price", .num 7)]), ("b", .num 2)]))
      = .ok (.obj [("apple", .num 7), ("b", .undefVal)])
    ∧ getPrices (.success (.obj [("A", .obj [("price", .num 1)]), ("b", .nullv)]))
      = .error (.pricesError "Failed to retrieve prices with status code Unknown") :=
  ⟨claim_C1_amended.1 (.obj [("x", .obj [])]) (.failure (some 7)) rfl rfl,
   claim_C1_amended.2.1 .undefVal (.failure (some 7)) rfl,
   claim_C1_amended.2.2.1 [("APPLE", .obj [("price", .num 7)]), ("b", .num 2)] "APPLE"
     rfl rfl (by simp; decide) (by decide),
   claim_C1_amended.2.2.2 [("A", .obj [("price", .num 1)]), ("b", .nullv)] "A"
     rfl rfl ⟨("b", .nullv), by simp, rfl⟩⟩

/-- Claim C2 (code bug): the claimed input validation does not happen.  On
the empty object the guard does not raise the InvalidInput error "Invalid
prices data provided"; instead `firstKey` is `undefined` and
`firstKey.toLowerCase()` raises a `TypeError`, because the disjunct
`!prices instanceof Object` parses as `(!prices) instanceof Object` and is
dead.  The second conjunct records that the raised error is a different
error from the one the claim requires. -/
theorem claim_C2_bug_eval :
    (∀ f : FetchResult, parsePrices (.obj []) f = .error .typeError)
    ∧ ∀ m : String, JsError.typeError ≠ JsError.networthError m :=
  ⟨fun _ => rfl, by simp⟩

/-- Claim C3 (counterexample): a catalog whose SECOND key is mixed-case but
whose first key is already lowercase is returned untouched — the rewrite
is gated on the first key only — so the lowercase lookup `b` finds
nothing, contradicting the claim for the original key `B`. -/
theorem claim_C3_counterexample :
    parsePrices (.obj [("a", .num 1), ("B", .num 2)]) (.failure none)
      = .ok (.obj [("a", .num 1), ("B", .num 2)])
    ∧ lookupJs [("a", .num 1), ("B", .num 2)] "b" = none :=
  ⟨rfl, rfl⟩

/-- Claim C3 (amended): when the FIRST key of the supplied catalog is not
all-lowercase (and the catalog's keys do not collide after lowercasing:
distinct keys have distinct lowercase forms, and a key's lowercase form
equal to some key is the key itself), normalization adds, for each
original key, an entry under the lowercased key with that key's value,
retaining the originals; consequently the lookup of each lowercased
identifier resolves to the original value — in particular
`SKYBLOCK_MENU -> 5` resolves under `skyblock_menu` to 5. -/
theorem claim_C3_amended (es : List (String × JsVal)) (f : FetchResult) (k0 : String)
    (hnd : (es.map Prod.fst).Nodup)
    (hinj : ∀ a ∈ es.map Prod.fst, ∀ b ∈ es.map Prod.fst,
      a ≠ b → toLowerStr a ≠ toLowerStr b)
    (hself : ∀ j ∈ es.map Prod.fst, toLowerStr j ∈ es.map Prod.fst → toLowerStr j = j)
    (hhead : (es.map Prod.fst).head? = some k0)
    (hk : k0 ≠ toLowerStr k0)
    (hobj : instanceofObject (jsGetFirst (.obj es)) = false) :
    parsePrices (.obj es) f = .ok (.obj (es ++ addedEntries es (es.map Prod.fst)))
    ∧ ∀ p ∈ es, lookupJs (es ++ addedEntries es (es.map Prod.fst)) (toLowerStr p.1)
        = some p.2 := by
  constructor
  · rw [parsePrices_rewrite_eq es f k0 hhead hk hobj,
      rewriteLower_closed es hnd hinj hself]
  · intro p hp
    have hpK : p.1 ∈ es.map Prod.fst := List.mem_map.mpr ⟨p, hp, rfl⟩
    by_cases hlow : toLowerStr p.1 ∈ es.map Prod.fst
    · have heq : toLowerStr p.1 = p.1 := hself p.1 hpK hlow
      rw [heq, lookupJs_append_left hpK, lookupJs_eq_of_mem_nodup hnd hp]
    · rw [lookupJs_append_right hlow,
        lookupJs_addedEntries es hinj (es.map Prod.fst) hnd (fun j h => h) p.1 hpK hlow,
        lookupJs_eq_of_mem_nodup hnd hp]
      rfl

/-- Claim C3 (witness): the amended statement at the catalog
`SKYBLOCK_MENU -> 5`: normalization appends the lowercase entry and the
lookup of `skyblock_menu` resolves to 5. -/
theorem claim_C3_amended_witness :
    parsePrices (.obj [("SKYBLOCK_MENU", .num 5)]) (.failure none)
      = .ok (.obj [("SKYBLOCK_MENU", .num 5), ("skyblock_menu", .num 5)])
    ∧ lookupJs [("SKYBLOCK_MENU", .num 5), ("skyblock_menu", .num 5)] "skyblock_menu"
      = some (.num 5) := by
  have h := claim_C3_amended [("SKYBLOCK_MENU", .num 5)] (.failure none) "SKYBLOCK_MENU"
    (by simp) (by decide) (by decide) rfl (by decide) rfl
  exact ⟨h.1, h.2 ("SKYBLOCK_MENU", .num 5) (by simp)⟩

/-- Claim C4 (code bug): `parsePrices` DOES mutate the caller-supplied
catalog in place (the source writes `prices[id.toLowerCase()] = prices[id]`
into the very object it was passed and returns that same reference; the
embedding returns that object's final contents).  With `options.prices`
set to the catalog `A -> 1`, the catalog observed after the
`getItemNetworth` call (extracted here by an identity-like collaborator)
holds entries `A -> 1, a -> 1`, which differ from the supplied contents. -/
theorem claim_C4_bug_eval :
    getItemNetworth (.obj [("tag", .str "SKYBLOCK_MENU")])
        (.obj [("prices", .obj [("A", .num 1)])]) (.failure none) (fun _ p => p)
      = .ok (.obj [("A", .num 1), ("a", .num 1)])
    ∧ JsVal.obj [("A", .num 1), ("a", .num 1)] ≠ .obj [("A", .num 1)] :=
  ⟨rfl, by simp⟩

/-- Claim C5 (confirmed): normalization is idempotent on already-canonical
catalogs.  A non-empty catalog whose keys are all lowercase and whose
values are all bare numbers is returned exactly as supplied. -/
theorem claim_C5 (es : List (String × JsVal)) (f : FetchResult)
    (hne : es ≠ [])
    (hlow : ∀ k ∈ es.map Prod.fst, toLowerStr k = k)
    (hnum : ∀ p ∈ es, isNum p.2 = true) :
    parsePrices (.obj es) f = .ok (.obj es) := by
  match es, hne with
  | (k0, v0) :: rest, _ =>
    have hk0 : toLowerStr k0 = k0 := hlow k0 (by simp)
    have hv0 : isNum v0 = true := hnum (k0, v0) (by simp)
    have hio : instanceofObject v0 = false := by
      cases v0 <;> first | rfl | simp [isNum] at hv0
    simp [parsePrices, truthy, instanceofObject_jsNot, jsGetFirst, jsKeys, jsGet,
      lookupJs, hio, hk0]

/-- Claim C5 (witness): idempotence at the canonical catalog `abc -> 5`. -/
theorem claim_C5_witness :
    parsePrices (.obj [("abc", .num 5)]) (.failure none)
      = .ok (.obj [("abc", .num 5)]) :=
  claim_C5 [("abc", .num 5)] (.failure none) (by simp) (by decide) (by decide)

/-- Claim C6 (counterexample): an item that HAS both a `tag` and an `exp`
field still fails with "Invalid item provided" when both values are falsy
(`tag` the empty string, `exp` zero), instead of proceeding to a
valuation result as the claim's "otherwise" branch requires. -/
theorem claim_C6_counterexample :
    jsKeys (.obj [("tag", .str ""), ("exp", .num 0)]) = ["tag", "exp"]
    ∧ getItemNetworth (.obj [("tag", .str ""), ("exp", .num 0)])
        (.obj [("prices", .obj [("x", .num 1)])]) (.failure none) (fun _ _ => .undefVal)
      = .error (.networthError "Invalid item provided") :=
  ⟨rfl, rfl⟩

/-- Claim C6 (amended): `getItemNetworth` fails with the InvalidInput
error "Invalid item provided" exactly when the item's `tag` and `exp`
are both falsy (an absent field reads as `undefined`, which is falsy, so
the empty object fails); when at least one of them is truthy it proceeds:
it normalizes `options.prices` and returns the single-item result of the
external `calculateItemNetworth` collaborator on the item and the
normalized catalog, propagating any normalization error. -/
theorem claim_C6_amended (item options : JsVal) (f : FetchResult)
    (ci : JsVal → JsVal → JsVal) :
    (truthy (jsGet item "tag") = false → truthy (jsGet item "exp") = false →
      getItemNetworth item options f ci = .error (.networthError "Invalid item provided"))
    ∧ (truthy (jsGet item "tag") = true ∨ truthy (jsGet item "exp") = true →
      getItemNetworth item options f ci
        = (parsePrices (jsGet options "prices") f).map (ci item)) := by
  constructor
  · intro h1 h2
    simp [getItemNetworth, h1, h2]
  · intro h
    have hcond : (!truthy (jsGet item "tag") && !truthy (jsGet item "exp")) = false := by
      rcases h with h | h <;> simp [h]
    simp only [getItemNetworth, hcond, Bool.false_eq_true, if_false]
    cases hp : parsePrices (jsGet options "prices") f <;> simp [Except.map]

/-- Claim C6 (witness): the amended statement at the empty object — the
scenario `getItemNetworth(\x7b\x7d)` — which fails with "Invalid item
provided". -/
theorem claim_C6_amended_witness :
    getItemNetworth (.obj []) (.obj []) (.failure none) (fun _ _ => .undefVal)
      = .error (.networthError "Invalid item provided") :=
  (claim_C6_amended (.obj []) (.obj []) (.failure none) (fun _ _ => .undefVal)).1 rfl rfl

/-- Claim C7 (confirmed): a failed catalog fetch surfaces a `PricesError`
whose message carries the upstream HTTP status code when one is attached
to the error (any real HTTP status is positive), and the text "Unknown"
when no response status is available. -/
theorem claim_C7 :
    (∀ s : Nat, 0 < s → getPrices (.failure (some s))
      = .error (.pricesError ("Failed to retrieve prices with status code " ++ toString s)))
    ∧ getPrices (.failure none)
      = .error (.pricesError "Failed to retrieve prices with status code Unknown") := by
  refine ⟨fun s hs => ?_, rfl⟩
  simp [getPrices, statusText, Nat.pos_iff_ne_zero.mp hs]

/-- Claim C7 (witness): an HTTP 503 failure yields the `PricesError`
carrying status 503. -/
theorem claim_C7_witness :
    getPrices (.failure (some 503))
      = .error (.pricesError "Failed to retrieve prices with status code 503") :=
  claim_C7.1 503 (by decide)

/-- Claim C8 (confirmed): the dead-guard analysis of `parsePrices`.  The
disjunct `!prices instanceof Object` — i.e. `(!prices) instanceof Object`
— is false for every value, and `parsePrices` raises the error "Invalid
prices data provided" if and only if the supplied argument is truthy and
the value stored at its first enumerated key is an Object. -/
theorem claim_C8 :
    (∀ v : JsVal, instanceofObject (jsNot v) = false)
    ∧ ∀ (p : JsVal) (f : FetchResult),
      parsePrices p f = .error (.networthError "Invalid prices data provided")
        ↔ truthy p = true ∧ instanceofObject (jsGetFirst p) = true := by
  refine ⟨instanceofObject_jsNot, fun p f => ⟨fun h => ?_, fun hc => ?_⟩⟩
  · cases ht : truthy p with
    | false =>
      rw [show parsePrices p f = getPrices f by simp [parsePrices, ht]] at h
      exact absurd h (getPrices_not_networthError f _)
    | true =>
      cases hfv : instanceofObject (jsGetFirst p) with
      | true => exact ⟨rfl, rfl⟩
      | false =>
        rcases parsePrices_result_shape p f ht hfv with hs | ⟨v, hs⟩ | hs <;> rw [hs] at h
        · simp at h
        · simp at h
        · exact absurd h (getPrices_not_networthError f _)
  · obtain ⟨ht, hfv⟩ := hc
    simp [parsePrices, ht, hfv, instanceofObject_jsNot]

/-- Claim C8 (witness): the characterization instantiated at a truthy
catalog whose first value is an object, which is rejected. -/
theorem claim_C8_witness :
    parsePrices (.obj [("a", .obj [])]) (.failure none)
      = .error (.networthError "Invalid prices data provided") :=
  (claim_C8.2 (.obj [("a", .obj [])]) (.failure none)).mpr ⟨rfl, rfl⟩

/-- Claim C9 (counterexample): on the colliding catalog `B -> 5, b -> 7`
the rewrite overwrites the lowercase original: the returned catalog is
`B -> 5, b -> 5`, so the entry under the lowercased key of the original
key `b` does not hold that key's value 7. -/
theorem claim_C9_counterexample :
    parsePrices (.obj [("B", .num 5), ("b", .num 7)]) (.failure none)
      = .ok (.obj [("B", .num 5), ("b", .num 5)])
    ∧ lookupJs [("B", .num 5), ("b", .num 5)] "b" ≠ some (.num 7) :=
  ⟨rfl, by simp [lookupJs]⟩

/-- Claim C9 (amended): when the first enumerated key is not all-lowercase
and the keys are collision-free under lowercasing (distinct keys have
distinct lowercase forms, and a key's lowercase form equal to some key is
that key itself), `parsePrices` returns the very object it was given —
the embedding returns its final contents — which now holds every original
entry unchanged and in place, followed by one appended entry per original
key whose lowercase form was not already a key, under the lowercased key
with that key's value; so both casings of each non-lowercase key are
present.  On colliding catalogs earlier keys overwrite later lowercase
originals instead. -/
theorem claim_C9_amended (es : List (String × JsVal)) (f : FetchResult) (k0 : String)
    (hnd : (es.map Prod.fst).Nodup)
    (hinj : ∀ a ∈ es.map Prod.fst, ∀ b ∈ es.map Prod.fst,
      a ≠ b → toLowerStr a ≠ toLowerStr b)
    (hself : ∀ j ∈ es.map Prod.fst, toLowerStr j ∈ es.map Prod.fst → toLowerStr j = j)
    (hhead : (es.map Prod.fst).head? = some k0)
    (hk : k0 ≠ toLowerStr k0)
    (hobj : instanceofObject (jsGetFirst (.obj es)) = false) :
    parsePrices (.obj es) f = .ok (.obj (es ++ addedEntries es (es.map Prod.fst))) := by
  rw [parsePrices_rewrite_eq es f k0 hhead hk hobj, rewriteLower_closed es hnd hinj hself]

/-- Claim C9 (witness): the amended statement at the catalog
`SKY_B -> 3, c -> 4`: the mixed-case key gains a lowercase alias, the
already-lowercase key does not, and the originals are retained in place. -/
theorem claim_C9_amended_witness :
    parsePrices (.obj [("SKY_B", .num 3), ("c", .num 4)]) (.failure none)
      = .ok (.obj [("SKY_B", .num 3), ("c", .num 4), ("sky_b", .num 3)]) :=
  claim_C9_amended [("SKY_B", .num 3), ("c", .num 4)] (.failure none) "SKY_B"
    (by simp) (by decide) (by decide) rfl (by decide) rfl

/-- Claim C10 (confirmed): `getItemNetworth` tests `tag` and `exp` by
truthiness, so an item on which both fields are present but falsy is
rejected with "Invalid item provided" even though the fields exist. -/
theorem claim_C10 (es : List (String × JsVal)) (options : JsVal) (f : FetchResult)
    (ci : JsVal → JsVal → JsVal)
    (_htagMem : "tag" ∈ es.map Prod.fst) (_hexpMem : "exp" ∈ es.map Prod.fst)
    (htag : truthy (jsGet (.obj es) "tag") = false)
    (hexp : truthy (jsGet (.obj es) "exp") = false) :
    getItemNetworth (.obj es) options f ci = .error (.networthError "Invalid item provided") := by
  simp [getItemNetworth, htag, hexp]

/-- Claim C10 (witness): the item with `tag` the empty string and `exp`
zero — both fields present, both falsy — is rejected. -/
theorem claim_C10_witness :
    getItemNetworth (.obj [("tag", .str ""), ("exp", .num 0)]) (.obj [])
      (.failure none) (fun _ _ => .undefVal)
      = .error (.networthError "Invalid item provided") :=
  claim_C10 [("tag", .str ""), ("exp", .num 0)] (.obj []) (.failure none)
    (fun _ _ => .undefVal) (by simp) (by simp) rfl rfl

end SkyHelper
